import Mathlib

/-
Verification of the deepstream.io ArangoDB storage connector.

The embedding models the two source modules:
  * src/transform-data.js : transformValueForStorage / transformValueFromStorage
  * src/connector.js      : Connector.set / get / delete, _getParams, _getCollection

JSON-like runtime values are modelled by `JVal`; JavaScript objects are
association lists of (key, value) pairs in insertion order (real JS objects
never hold duplicate keys, so theorems about objects assume `Nodup` keys
where the argument needs it).  A JS function call that throws is modelled by
an `Option`-valued function returning `none`, or by a dedicated `threw`
result constructor.
-/

inductive JVal where
  | null
  | bool (b : Bool)
  | num (n : Int)
  | str (s : String)
  | arr (elems : List JVal)
  | obj (fields : List (String × JVal))

/-- Property read `o[key]` on a JS object: value of the (unique) matching key. -/
def getField : List (String × JVal) → String → Option JVal
  | [], _ => none
  | (k, v) :: fs, key => if k = key then some v else getField fs key

/-- Property removal `delete o[key]` on a JS object. -/
def delField (fs : List (String × JVal)) (key : String) : List (String × JVal) :=
  fs.filter (fun p => p.1 != key)

/-- Property write `o[key] = v` on a JS object: replaces in place when the key
exists, otherwise appends (JS insertion-order semantics). -/
def setField : List (String × JVal) → String → JVal → List (String × JVal)
  | [], key, v => [(key, v)]
  | (k, w) :: fs, key, v =>
      if k = key then (k, v) :: fs else (k, w) :: setField fs key v

/-- Discriminates the values on which `data.__ds = value` / `data._d = value`
succeeds in JS: property assignment throws a TypeError on `undefined`, `null`
and (in strict mode, which transform-data.js declares) on primitives. -/
def JVal.isObjOrArr : JVal → Bool
  | .obj _ => true
  | .arr _ => true
  | _ => false

/-- Deep (structural, object-key-order-insensitive) equality of JSON-like
values, the notion used by chai's deep-equal in the repository's tests.
Two objects are deeply equal when one field list matches a permutation of
the other key-for-key with deeply equal values. -/
inductive DeepEq : JVal → JVal → Prop where
  | null : DeepEq .null .null
  | bool (b : Bool) : DeepEq (.bool b) (.bool b)
  | num (n : Int) : DeepEq (.num n) (.num n)
  | str (s : String) : DeepEq (.str s) (.str s)
  | arr {xs ys : List JVal} : List.Forall₂ DeepEq xs ys → DeepEq (.arr xs) (.arr ys)
  | obj {a b b' : List (String × JVal)} :
      b.Perm b' →
      a.map Prod.fst = b'.map Prod.fst →
      List.Forall₂ DeepEq (a.map Prod.snd) (b'.map Prod.snd) →
      DeepEq (.obj a) (.obj b)

/-- transformValueForStorage (src/transform-data.js).

JS source:
  value = JSON.parse(JSON.stringify(value))   -- deep copy: identity here
  var data = value._d
  delete value._d
  if (data instanceof Array) data = \x7b __dsList: data, __ds: value \x7d
  else data.__ds = value
  return data

`none` models the TypeError thrown when `_d` is absent, `null` or a
primitive (strict-mode property assignment), and the TypeError thrown by
reading `._d` when the input itself is not an object. -/
def transformValueForStorage (value : JVal) : Option JVal :=
  match value with
  | .obj fs =>
    match getField fs "_d" with
    | some (.arr xs) =>
        some (.obj [("__dsList", .arr xs), ("__ds", .obj (delField fs "_d"))])
    | some (.obj ds) =>
        some (.obj (setField ds "__ds" (.obj (delField fs "_d"))))
    | _ => none
  | _ => none

/-- The bookkeeping removal step of transformValueFromStorage:
  delete value.__ds; delete value._key; delete value._rev; delete value._id -/
def stripStoreFields (fs : List (String × JVal)) : List (String × JVal) :=
  delField (delField (delField (delField fs "__ds") "_key") "_rev") "_id"

/-- transformValueFromStorage (src/transform-data.js).

JS source:
  value = JSON.parse(JSON.stringify(value))
  var data = value.__ds
  delete value.__ds; delete value._key; delete value._rev; delete value._id
  if (value.__dsList instanceof Array) data._d = value.__dsList
  else data._d = value
  return data

`none` models the TypeError thrown by `data._d = ...` when `__ds` is absent,
`null` or a primitive.  (An array-valued `__ds` would yield a JS array
carrying an expando property, which is not a JSON value; documents produced
by this connector always store an object under `__ds`, so that case is also
mapped to `none`.) -/
def transformValueFromStorage (value : JVal) : Option JVal :=
  match value with
  | .obj fs =>
    match getField fs "__ds" with
    | some (.obj ds) =>
      match getField (stripStoreFields fs) "__dsList" with
      | some (.arr xs) => some (.obj (setField ds "_d" (.arr xs)))
      | _ => some (.obj (setField ds "_d" (.obj (stripStoreFields fs))))
    | _ => none
  | _ => none

/-- First index at which `pat` occurs as a contiguous run inside a character
list; `none` models JavaScript's `-1`.  Mirrors `String.prototype.indexOf`
(the empty pattern matches at index 0, as in JS). -/
def firstIdx (pat : List Char) : List Char → Option Nat
  | [] => if pat.isEmpty then some 0 else none
  | c :: cs =>
      if pat.isPrefixOf (c :: cs) then some 0
      else (firstIdx pat cs).map (· + 1)

/-- The search string actually passed to `key.indexOf(this._splitChar)`.
When no splitChar is configured the field holds JS `null`, which
`String.prototype.indexOf` coerces to the four-character string "null". -/
def splitPattern : Option String → String
  | none => "null"
  | some s => s

/-- The connector options relevant to routing: `splitChar` (null when absent,
since the constructor does `options.splitChar || null`) and
`defaultCollection` (defaulting to "deepstream_docs"). -/
structure Config where
  splitChar : Option String
  defaultCollection : String

/-- Connector._getParams (src/connector.js), routing part: maps a key to
(collection name, document id), or `none` (the source returns null) when the
delimiter occurs at index 0.  The collection-handle lookup that _getParams
also performs is modelled separately by `getCollection`. -/
def getParams (cfg : Config) (key : String) : Option (String × String) :=
  match firstIdx (splitPattern cfg.splitChar).toList key.toList with
  | some 0 => none
  | none => some (cfg.defaultCollection, key)
  | some (i + 1) =>
      some (String.mk (key.toList.take (i + 1)), String.mk (key.toList.drop (i + 2)))

/-- Store commands the connector issues against the ArangoDB client, recorded
as a trace so that "performs no store I/O" is statable. -/
inductive StoreOp where
  | upsert (collection docKey : String) (doc : JVal)
  | query (collection filterKey : String)
  | remove (collection docKey : String)

/-- The backing document store: collection name → document `_key` → document. -/
abbrev StoreMap := String → String → Option JVal

def emptyStore : StoreMap := fun _ _ => none

def storePut (st : StoreMap) (c k : String) (doc : JVal) : StoreMap :=
  fun c' k' => if c' = c ∧ k' = k then some doc else st c' k'

def storeRemove (st : StoreMap) (c k : String) : StoreMap :=
  fun c' k' => if c' = c ∧ k' = k then none else st c' k'

/-- Outcome of Connector.set as seen by its caller: the synchronous throw of
transformValueForStorage, or the callback's arguments. -/
inductive SetRes where
  | threw
  | cbErr (msg : String)
  | cbOk
deriving DecidableEq

/-- Outcome of Connector.get as seen by its caller: a throw inside the cursor
callback, or callback(err, value). -/
inductive GetRes where
  | threw
  | cb (err : Option String) (val : Option JVal)

/-- Outcome of Connector.delete as seen by its caller. -/
inductive DelRes where
  | cbErr (msg : String)
  | cbOk
deriving DecidableEq

/-- `value._key = params.id` on the storage document.  transformValueForStorage
only ever returns objects, so the non-object arm is unreachable. -/
def attachKey : JVal → String → JVal
  | .obj fs, id => .obj (setField fs "_key" (.str id))
  | v, _ => v

/-- Connector.set (src/connector.js):
  params = _getParams(key); if null → callback("Invalid key " + key)
  value = transformValueForStorage(value); value._key = params.id
  UPSERT by _key, INSERT/REPLACE value IN params.collection. -/
def connectorSet (cfg : Config) (st : StoreMap) (key : String) (value : JVal) :
    SetRes × StoreMap × List StoreOp :=
  match getParams cfg key with
  | none => (.cbErr ("Invalid key " ++ key), st, [])
  | some (coll, id) =>
    match transformValueForStorage value with
    | none => (.threw, st, [])
    | some sv =>
        (.cbOk, storePut st coll id (attachKey sv id), [.upsert coll id (attachKey sv id)])

/-- What the get query plus `cursor.next` can report back to Connector.get. -/
inductive QueryOutcome where
  | queryErr (e : String)
  | cursorErr (e : String)
  | noRecord
  | record (doc : JVal)

/-- The callback discipline of Connector.get's query continuation:
  (err, cursor) with err        → callback(err, null)
  cursor.next err or no record  → callback(null, null)
  record                        → callback(null, transformValueFromStorage(record)). -/
def getCallback (out : QueryOutcome) : GetRes :=
  match out with
  | .queryErr e => .cb (some e) none
  | .cursorErr _ => .cb none none
  | .noRecord => .cb none none
  | .record doc =>
    match transformValueFromStorage doc with
    | some d => .cb none (some d)
    | none => .threw

/-- Result of the AQL `FOR r IN coll FILTER r._key == filterKey LIMIT 1
RETURN r` against an honest store: the stored document whose `_key` equals
`filterKey`, if any. -/
def storeGetOutcome (st : StoreMap) (coll filterKey : String) : QueryOutcome :=
  match st coll filterKey with
  | some doc => .record doc
  | none => .noRecord

/-- Connector.get (src/connector.js) against an honest store.  Note that the
source filters on the raw `key` (FILTER r._key == key), not on the routed
document id. -/
def connectorGet (cfg : Config) (st : StoreMap) (key : String) :
    GetRes × List StoreOp :=
  match getParams cfg key with
  | none => (.cb (some ("Invalid key " ++ key)) none, [])
  | some (coll, _) => (getCallback (storeGetOutcome st coll key), [.query coll key])

/-- Connector.get with the store's answer supplied explicitly, so that
query-stage and cursor-stage faults can be exercised. -/
def connectorGetWith (cfg : Config) (key : String) (out : QueryOutcome) :
    GetRes × List StoreOp :=
  match getParams cfg key with
  | none => (.cb (some ("Invalid key " ++ key)) none, [])
  | some (coll, _) => (getCallback out, [.query coll key])

/-- Connector.delete (src/connector.js): REMOVE by the raw key (the source
removes `key`, not the routed id) in the routed collection; ArangoDB reports
an error when the document is absent, which the source passes to the
callback as (err, null). -/
def connectorDelete (cfg : Config) (st : StoreMap) (key : String) :
    DelRes × StoreMap × List StoreOp :=
  match getParams cfg key with
  | none => (.cbErr ("Invalid key " ++ key), st, [])
  | some (coll, _) =>
    match st coll key with
    | some _ => (.cbOk, storeRemove st coll key, [.remove coll key])
    | none => (.cbErr "document not found", st, [.remove coll key])

/-- The connector's collection-handle cache (`this._collections`) plus a
counter used to give each freshly created handle object a distinct identity,
so that "returns the identical cached handle" is statable. -/
structure ProvState where
  collections : String → Option Nat
  nextHandle : Nat

def emptyProv : ProvState := ⟨fun _ => none, 0⟩

/-- What the backing store answers during the asynchronous
existence-check/create sequence started for a fresh collection name. -/
inductive CollOutcome where
  | found
  | createdOk
  | createFailed (e : String)

/-- Externally visible effects of Connector._getCollection.  `emitError`
models `this.emit('error', ...)`; it is part of the effect vocabulary (the
constructor's bootstrap path uses it) but, as proved below, the
provisioning path never produces it. -/
inductive ProvEffect where
  | existsCheck (name : String)
  | createReq (name : String)
  | consoleError (e : String)
  | emitError (e : String)
deriving DecidableEq

def isCreateReq (name : String) : ProvEffect → Bool
  | .createReq n => n == name
  | _ => false

def isExistsCheck (name : String) : ProvEffect → Bool
  | .existsCheck n => n == name
  | _ => false

def isEmitError : ProvEffect → Bool
  | .emitError _ => true
  | _ => false

/-- The asynchronous continuation of Connector._getCollection:
  collection.get(err → collection.create(..., err → console.error(err))). -/
def checkEffects (oracle : String → CollOutcome) (name : String) : List ProvEffect :=
  match oracle name with
  | .found => []
  | .createdOk => [.createReq name]
  | .createFailed e => [.createReq name, .consoleError e]

/-- Connector._getCollection (src/connector.js): returns the cached handle
when present; otherwise synchronously installs a fresh handle in the cache
and starts the asynchronous existence check (whose effects, parameterised by
the store's answers, are listed after the check itself). -/
def getCollection (oracle : String → CollOutcome) (st : ProvState) (name : String) :
    Nat × ProvState × List ProvEffect :=
  match st.collections name with
  | some h => (h, st, [])
  | none =>
      (st.nextHandle,
       ⟨fun m => if m = name then some st.nextHandle else st.collections m,
        st.nextHandle + 1⟩,
       .existsCheck name :: checkEffects oracle name)

/-- A sequence of _getCollection calls against one connector instance,
accumulating the provisioning effects. -/
def runGetCollections (oracle : String → CollOutcome) (st : ProvState) :
    List String → ProvState × List ProvEffect
  | [] => (st, [])
  | n :: ns =>
      ((runGetCollections oracle (getCollection oracle st n).2.1 ns).1,
       (getCollection oracle st n).2.2 ++
         (runGetCollections oracle (getCollection oracle st n).2.1 ns).2)

/-- The field names the storage envelope reserves for itself: the metadata
side channel, the array wrapper, and ArangoDB's bookkeeping fields. -/
def reservedKeys : List String := ["__ds", "__dsList", "_key", "_rev", "_id"]

/- ------------------------------------------------------------------ -/
/- Helper lemmas                                                      -/
/- ------------------------------------------------------------------ -/

theorem deepEq_refl (v : JVal) : DeepEq v v := by
  generalize hn : sizeOf v = n
  induction n using Nat.strong_induction_on generalizing v with
  | _ n IH =>
    subst hn
    cases v with
    | null => exact .null
    | bool b => exact .bool b
    | num m => exact .num m
    | str s => exact .str s
    | arr xs =>
      refine .arr (List.forall₂_same.mpr fun x hx => ?_)
      exact IH (sizeOf x) (by have := List.sizeOf_lt_of_mem hx; simp; omega) x rfl
    | obj fs =>
      refine .obj (List.Perm.refl fs) rfl (List.forall₂_same.mpr fun w hw => ?_)
      rw [List.mem_map] at hw
      obtain ⟨p, hp, hpw⟩ := hw
      subst hpw
      have h1 := List.sizeOf_lt_of_mem hp
      refine IH (sizeOf p.2) ?_ p.2 rfl
      obtain ⟨k, w⟩ := p
      simp at h1 ⊢
      omega

theorem getField_none_of_not_mem (fs : List (String × JVal)) (k : String)
    (h : k ∉ fs.map Prod.fst) : getField fs k = none := by
  induction fs with
  | nil => rfl
  | cons p fs ih =>
    simp only [List.map_cons, List.mem_cons, not_or] at h
    obtain ⟨h1, h2⟩ := h
    obtain ⟨k', w⟩ := p
    simp only [getField]
    rw [if_neg (fun he => h1 he.symm)]
    exact ih h2

theorem getField_append_of_not_mem (l₁ l₂ : List (String × JVal)) (k : String)
    (h : k ∉ l₁.map Prod.fst) : getField (l₁ ++ l₂) k = getField l₂ k := by
  induction l₁ with
  | nil => rfl
  | cons p l₁ ih =>
    simp only [List.map_cons, List.mem_cons, not_or] at h
    obtain ⟨h1, h2⟩ := h
    obtain ⟨k', w⟩ := p
    simp only [List.cons_append, getField]
    rw [if_neg (fun he => h1 he.symm)]
    exact ih h2

theorem setField_of_not_mem (fs : List (String × JVal)) (k : String) (v : JVal)
    (h : k ∉ fs.map Prod.fst) : setField fs k v = fs ++ [(k, v)] := by
  induction fs with
  | nil => rfl
  | cons p fs ih =>
    simp only [List.map_cons, List.mem_cons, not_or] at h
    obtain ⟨h1, h2⟩ := h
    obtain ⟨k', w⟩ := p
    simp only [setField, List.cons_append]
    rw [if_neg (fun he => h1 he.symm)]
    rw [ih h2]

theorem delField_of_not_mem (fs : List (String × JVal)) (k : String)
    (h : k ∉ fs.map Prod.fst) : delField fs k = fs := by
  refine List.filter_eq_self.mpr fun p hp => ?_
  simp only [bne_iff_ne, ne_eq]
  intro he
  exact h (List.mem_map.mpr ⟨p, hp, he⟩)

theorem delField_append (l₁ l₂ : List (String × JVal)) (k : String) :
    delField (l₁ ++ l₂) k = delField l₁ k ++ delField l₂ k := by
  simp [delField, List.filter_append]

theorem stripStoreFields_append (l₁ l₂ : List (String × JVal)) :
    stripStoreFields (l₁ ++ l₂) = stripStoreFields l₁ ++ stripStoreFields l₂ := by
  simp [stripStoreFields, delField_append]

theorem not_mem_map_fst_delField (fs : List (String × JVal)) (k : String) :
    k ∉ (delField fs k).map Prod.fst := by
  intro h
  rw [List.mem_map] at h
  obtain ⟨p, hp, hpk⟩ := h
  rw [delField, List.mem_filter] at hp
  rw [hpk] at hp
  simp at hp

theorem perm_delField_append (fs : List (String × JVal)) (k : String) (v : JVal)
    (hnd : (fs.map Prod.fst).Nodup) (h : getField fs k = some v) :
    fs.Perm (delField fs k ++ [(k, v)]) := by
  induction fs with
  | nil => simp [getField] at h
  | cons p fs ih =>
    obtain ⟨k', w⟩ := p
    rw [List.map_cons, List.nodup_cons] at hnd
    obtain ⟨hk', hnd'⟩ := hnd
    by_cases hkk : k' = k
    · subst hkk
      simp [getField] at h
      subst h
      have hdel : delField ((k', w) :: fs) k' = fs := by
        simp only [delField, List.filter_cons]
        rw [if_neg (by simp)]
        exact delField_of_not_mem fs k' hk'
      rw [hdel]
      exact (List.perm_append_singleton _ _).symm
    · simp only [getField, if_neg hkk] at h
      have hdel : delField ((k', w) :: fs) k = (k', w) :: delField fs k := by
        simp only [delField, List.filter_cons]
        rw [if_pos (by simp [hkk])]
      rw [hdel, List.cons_append]
      exact (ih hnd' h).cons (k', w)

theorem deepEq_restore (fs : List (String × JVal)) (k : String) (v : JVal)
    (hnd : (fs.map Prod.fst).Nodup) (h : getField fs k = some v) :
    DeepEq (.obj (delField fs k ++ [(k, v)])) (.obj fs) := by
  refine DeepEq.obj (perm_delField_append fs k v hnd h) rfl ?_
  exact List.forall₂_same.mpr fun x _ => deepEq_refl x


/- ------------------------------------------------------------------ -/
/- Claim theorems                                                     -/
/- ------------------------------------------------------------------ -/

/-- Claim C2 (amended): for every JSON-like object `v` whose `_d` field holds
an object or an array, with arbitrary sibling metadata fields,
transformValueFromStorage (transformValueForStorage v) is deeply equal to
`v` — provided that, when the payload is an object, its top-level field
names avoid the reserved names __ds, __dsList, _key, _rev and _id.  Array
payloads round-trip unconditionally, element order preserved (the very same
array is restored). -/
theorem transform_roundtrip (fs : List (String × JVal)) (p : JVal)
    (hnodup : (fs.map Prod.fst).Nodup)
    (hd : getField fs "_d" = some p)
    (hp : (∃ ds, p = .obj ds ∧ ∀ k ∈ ds.map Prod.fst, k ∉ reservedKeys) ∨
          (∃ xs, p = .arr xs)) :
    ∃ stv r, transformValueForStorage (.obj fs) = some stv ∧
      transformValueFromStorage stv = some r ∧ DeepEq r (.obj fs) := by
  rcases hp with ⟨ds, rfl, hres⟩ | ⟨xs, rfl⟩
  · have h1 : "__ds" ∉ ds.map Prod.fst :=
      fun hm => absurd (by decide : "__ds" ∈ reservedKeys) (hres _ hm)
    have h2 : "__dsList" ∉ ds.map Prod.fst :=
      fun hm => absurd (by decide : "__dsList" ∈ reservedKeys) (hres _ hm)
    have h3 : "_key" ∉ ds.map Prod.fst :=
      fun hm => absurd (by decide : "_key" ∈ reservedKeys) (hres _ hm)
    have h4 : "_rev" ∉ ds.map Prod.fst :=
      fun hm => absurd (by decide : "_rev" ∈ reservedKeys) (hres _ hm)
    have h5 : "_id" ∉ ds.map Prod.fst :=
      fun hm => absurd (by decide : "_id" ∈ reservedKeys) (hres _ hm)
    have hset : setField ds "__ds" (.obj (delField fs "_d")) =
        ds ++ [("__ds", .obj (delField fs "_d"))] :=
      setField_of_not_mem _ _ _ h1
    refine ⟨.obj (ds ++ [("__ds", .obj (delField fs "_d"))]),
            .obj (delField fs "_d" ++ [("_d", .obj ds)]), ?_, ?_, ?_⟩
    · simp [transformValueForStorage, hd, hset]
    · have hg : getField (ds ++ [("__ds", .obj (delField fs "_d"))]) "__ds" =
          some (.obj (delField fs "_d")) := by
        rw [getField_append_of_not_mem _ _ _ h1]
        simp [getField]
      have hsds : stripStoreFields ds = ds := by
        rw [stripStoreFields, delField_of_not_mem ds _ h1, delField_of_not_mem ds _ h3,
          delField_of_not_mem ds _ h4, delField_of_not_mem ds _ h5]
      have hstrip : stripStoreFields (ds ++ [("__ds", .obj (delField fs "_d"))]) = ds := by
        rw [stripStoreFields_append, hsds,
          show stripStoreFields [("__ds", .obj (delField fs "_d"))] = [] from rfl,
          List.append_nil]
      have hdsl : getField ds "__dsList" = none := getField_none_of_not_mem _ _ h2
      have hsetd : setField (delField fs "_d") "_d" (.obj ds) =
          delField fs "_d" ++ [("_d", .obj ds)] :=
        setField_of_not_mem _ _ _ (not_mem_map_fst_delField fs "_d")
      simp [transformValueFromStorage, hg, hstrip, hdsl, hsetd]
    · exact deepEq_restore fs "_d" (.obj ds) hnodup hd
  · refine ⟨.obj [("__dsList", .arr xs), ("__ds", .obj (delField fs "_d"))],
            .obj (delField fs "_d" ++ [("_d", .arr xs)]), ?_, ?_, ?_⟩
    · simp [transformValueForStorage, hd]
    · have hsetd : setField (delField fs "_d") "_d" (.arr xs) =
          delField fs "_d" ++ [("_d", .arr xs)] :=
        setField_of_not_mem _ _ _ (not_mem_map_fst_delField fs "_d")
      simp only [transformValueFromStorage,
        show getField [("__dsList", JVal.arr xs), ("__ds", JVal.obj (delField fs "_d"))]
              "__ds" = some (.obj (delField fs "_d")) from rfl,
        show stripStoreFields [("__dsList", JVal.arr xs),
              ("__ds", JVal.obj (delField fs "_d"))] = [("__dsList", JVal.arr xs)] from rfl,
        show getField [("__dsList", JVal.arr xs)] "__dsList" = some (.arr xs) from rfl,
        hsetd]
    · exact deepEq_restore fs "_d" (.arr xs) hnodup hd

/-- Claim C2, witness instance: a concrete record with an object payload and
one metadata sibling round-trips up to deep equality. -/
theorem transform_roundtrip_witness :
    ∃ stv r,
      transformValueForStorage
          (.obj [("_v", .num 1), ("_d", .obj [("name", .str "w")])]) = some stv ∧
      transformValueFromStorage stv = some r ∧
      DeepEq r (.obj [("_v", .num 1), ("_d", .obj [("name", .str "w")])]) :=
  transform_roundtrip _ _ (by decide) rfl
    (Or.inl ⟨_, rfl, by decide⟩)

/-- Claim C2, counterexample to the unrestricted statement: a payload whose
own field is named `_key` is destroyed by the round trip, because
transformValueFromStorage unconditionally strips `_key` from the storage
document whose top level is the payload itself. -/
theorem transform_roundtrip_cex :
    transformValueForStorage (.obj [("_d", .obj [("_key", .str "x")])]) =
      some (.obj [("_key", .str "x"), ("__ds", .obj [])]) ∧
    transformValueFromStorage (.obj [("_key", .str "x"), ("__ds", .obj [])]) =
      some (.obj [("_d", .obj [])]) ∧
    ¬ DeepEq (.obj [("_d", .obj [])]) (.obj [("_d", .obj [("_key", .str "x")])]) := by
  refine ⟨rfl, rfl, ?_⟩
  intro h
  cases h with
  | obj hperm hk hf =>
    rw [List.singleton_perm] at hperm
    subst hperm
    simp at hf
    cases hf with
    | obj hperm2 hk2 hf2 =>
      rw [List.singleton_perm] at hperm2
      subst hperm2
      simp at hk2

/-- Claim C10: transformValueForStorage is partial at the public interface:
it returns normally exactly when the input is an object whose `_d` field is
present and holds an object or an array; for `_d` absent or primitive (or a
non-object input) the strict-mode property assignment `data.__ds = value`
throws, modelled by `none`. -/
theorem transformValueForStorage_domain (v : JVal) :
    (transformValueForStorage v).isSome = true ↔
      ∃ fs p, v = .obj fs ∧ getField fs "_d" = some p ∧ p.isObjOrArr = true := by
  cases v with
  | null => simp [transformValueForStorage]
  | bool b => simp [transformValueForStorage]
  | num n => simp [transformValueForStorage]
  | str s => simp [transformValueForStorage]
  | arr xs => simp [transformValueForStorage]
  | obj fs =>
    cases hd : getField fs "_d" with
    | none => simp [transformValueForStorage, hd]
    | some p =>
      cases p <;> simp [transformValueForStorage, hd, JVal.isObjOrArr]

theorem isPrefixOf_self (l : List Char) : l.isPrefixOf l = true := by
  induction l with
  | nil => rfl
  | cons c cs ih => simp [List.isPrefixOf, ih]

theorem firstIdx_eq_none_of_not_mem (d : Char) (ks : List Char) (h : d ∉ ks) :
    firstIdx [d] ks = none := by
  induction ks with
  | nil => rfl
  | cons c cs ih =>
    simp only [List.mem_cons, not_or] at h
    obtain ⟨h1, h2⟩ := h
    rw [firstIdx, if_neg (by simp [List.isPrefixOf, h1]), ih h2]
    rfl

theorem firstIdx_eq_of_first (d : Char) (ks : List Char) (i : Nat)
    (hi : ks[i]? = some d) (hj : ∀ j, j < i → ks[j]? ≠ some d) :
    firstIdx [d] ks = some i := by
  induction ks generalizing i with
  | nil => simp at hi
  | cons c cs ih =>
    cases i with
    | zero =>
      simp only [List.getElem?_cons_zero, Option.some.injEq] at hi
      subst hi
      simp [firstIdx, List.isPrefixOf]
    | succ i =>
      have hc : ¬ (c = d) := by
        have h0 := hj 0 (Nat.succ_pos i)
        simpa using h0
      rw [firstIdx, if_neg (by simp [List.isPrefixOf]; exact fun he => hc he.symm)]
      rw [ih i (by simpa using hi) fun j hj' => by
        have := hj (j + 1) (Nat.succ_lt_succ hj')
        simpa using this]
      rfl

/-- Claim C3: with a configured single-character delimiter `d`, routing a key
`ks` behaves as specified: no occurrence of `d` routes to the default
collection with the full key as id; a first occurrence at index i > 0 splits
into prefix/suffix around that index (later occurrences stay in the id
verbatim); an occurrence at index 0 yields the InvalidKey failure (`none`). -/
theorem route_single_char_delimiter (d : Char) (defC : String) (ks : List Char) :
    (d ∉ ks →
      getParams ⟨some (String.mk [d]), defC⟩ (String.mk ks) =
        some (defC, String.mk ks)) ∧
    (∀ i, 0 < i → ks[i]? = some d → (∀ j, j < i → ks[j]? ≠ some d) →
      getParams ⟨some (String.mk [d]), defC⟩ (String.mk ks) =
        some (String.mk (ks.take i), String.mk (ks.drop (i + 1)))) ∧
    (ks[0]? = some d →
      getParams ⟨some (String.mk [d]), defC⟩ (String.mk ks) = none) := by
  refine ⟨?_, ?_, ?_⟩
  · intro h
    simp only [getParams, splitPattern]
    rw [show (String.mk [d]).toList = [d] from rfl, show (String.mk ks).toList = ks from rfl]
    rw [firstIdx_eq_none_of_not_mem d ks h]
  · intro i hpos hi hj
    simp only [getParams, splitPattern]
    rw [show (String.mk [d]).toList = [d] from rfl, show (String.mk ks).toList = ks from rfl]
    rw [firstIdx_eq_of_first d ks i hi hj]
    cases i with
    | zero => exact absurd hpos (by simp)
    | succ i => rfl
  · intro h0
    simp only [getParams, splitPattern]
    rw [show (String.mk [d]).toList = [d] from rfl, show (String.mk ks).toList = ks from rfl]
    rw [firstIdx_eq_of_first d ks 0 h0 (fun j hj => absurd hj (Nat.not_lt_zero j))]

/-- Claim C3, witness instance: with delimiter '/', the key "user/ab/c"
splits at the first '/' only; the second '/' stays in the document id. -/
theorem route_single_char_delimiter_witness :
    getParams ⟨some (String.mk ['/']), "deepstream_docs"⟩ "user/ab/c" =
      some ("user", "ab/c") := by
  have h := (route_single_char_delimiter '/' "deepstream_docs" "user/ab/c".toList).2.1 4
    (by decide) (by decide) (by decide)
  exact h

/-- Claim C4: with no splitChar configured the source runs
`key.indexOf(null)`, and JavaScript coerces `null` to the string "null".  A
key that is exactly "null" therefore hits the position-0 rule and is
rejected as invalid, and a key containing "null" later is mis-split (only
one character after the match is dropped), while keys not containing "null"
route to the default collection with the full key, as the claim expects. -/
theorem null_splitChar_routing :
    getParams ⟨none, "deepstream_docs"⟩ "null" = none ∧
    getParams ⟨none, "deepstream_docs"⟩ "anullb" = some ("a", "ullb") ∧
    getParams ⟨none, "deepstream_docs"⟩ "someValue" =
      some ("deepstream_docs", "someValue") :=
  ⟨rfl, rfl, rfl⟩

/-- Claim C5, counterexample: with a delimiter configured, routing the empty
key does NOT fail — JavaScript's `''.indexOf('/')` is -1, not 0, so the
empty key falls into the default-collection branch with an empty id. -/
theorem empty_key_routes_cex :
    getParams ⟨some "/", "deepstream_docs"⟩ "" = some ("deepstream_docs", "") := rfl

/-- Claim C5 (amended): with a (necessarily nonempty) delimiter configured, a
key equal to the delimiter alone fails with InvalidKey via the position-0
rule, but the empty key routes successfully to the default collection with
the empty document id. -/
theorem delimiter_alone_invalid (s defC : String) (h : s ≠ "") :
    getParams ⟨some s, defC⟩ s = none ∧
    getParams ⟨some s, defC⟩ "" = some (defC, "") := by
  have hne : s.toList ≠ [] := by
    intro hh
    apply h
    cases s with
    | mk data =>
      have hd : data = [] := by simpa using hh
      subst hd
      rfl
  constructor
  · obtain ⟨c, cs, hcs⟩ := List.exists_cons_of_ne_nil hne
    simp only [getParams, splitPattern]
    rw [hcs, firstIdx, if_pos (isPrefixOf_self (c :: cs))]
  · simp only [getParams, splitPattern]
    rw [show ("" : String).toList = [] from rfl, firstIdx,
      if_neg (by simpa [List.isEmpty_iff, String.toList] using hne)]

/-- Claim C5, witness instance with delimiter '/'. -/
theorem delimiter_alone_invalid_witness :
    getParams ⟨some "/", "deepstream_docs"⟩ "/" = none ∧
    getParams ⟨some "/", "deepstream_docs"⟩ "" = some ("deepstream_docs", "") :=
  delimiter_alone_invalid "/" "deepstream_docs" (by decide)

/-- Claim C6, counterexample: on a key that routes successfully, an error
reported by the query call itself is NOT collapsed into (null, null): the
source does `if (err) return callback(err, res)` and propagates it. -/
theorem get_query_error_cex :
    (getParams ⟨none, "deepstream_docs"⟩ "someValue").isSome = true ∧
    (connectorGetWith ⟨none, "deepstream_docs"⟩ "someValue"
        (.queryErr "connection refused")).1 =
      GetRes.cb (some "connection refused") none ∧
    (connectorGetWith ⟨none, "deepstream_docs"⟩ "someValue"
        (.queryErr "connection refused")).1 ≠ GetRes.cb none none := by
  refine ⟨rfl, rfl, ?_⟩
  intro hcontra
  have h2 : GetRes.cb (some "connection refused") none = GetRes.cb none none := hcontra
  injection h2 with h3 h4
  exact Option.noConfusion h3

/-- Claim C6 (amended): on a key that routes successfully, a missing record
and a cursor-iteration error are both collapsed into the callback
(null, null); an error reported by the query call itself, however, is
propagated to the callback as (error, null). -/
theorem get_error_collapse (cfg : Config) (key : String)
    (hroute : (getParams cfg key).isSome = true) :
    (∀ e, (connectorGetWith cfg key (.queryErr e)).1 = GetRes.cb (some e) none) ∧
    (∀ e, (connectorGetWith cfg key (.cursorErr e)).1 = GetRes.cb none none) ∧
    ((connectorGetWith cfg key .noRecord).1 = GetRes.cb none none) ∧
    (∀ st coll id, getParams cfg key = some (coll, id) → st coll key = none →
      (connectorGet cfg st key).1 = GetRes.cb none none) := by
  obtain ⟨pr, hpr⟩ := Option.isSome_iff_exists.mp hroute
  obtain ⟨coll, id⟩ := pr
  refine ⟨?_, ?_, ?_, ?_⟩
  · intro e; simp [connectorGetWith, hpr, getCallback]
  · intro e; simp [connectorGetWith, hpr, getCallback]
  · simp [connectorGetWith, hpr, getCallback]
  · intro st c i hroute2 hnone
    rw [hpr] at hroute2
    obtain ⟨rfl, rfl⟩ : c = coll ∧ i = id := by
      injection hroute2 with hq
      exact ⟨congrArg Prod.fst hq.symm, congrArg Prod.snd hq.symm⟩
    simp [connectorGet, hpr, getCallback, storeGetOutcome, hnone]

/-- Claim C6, witness instance: a cursor-stage fault on a routable key is
collapsed into (null, null). -/
theorem get_error_collapse_witness :
    (connectorGetWith ⟨none, "deepstream_docs"⟩ "someValue"
        (.cursorErr "iterator fault")).1 = GetRes.cb none none :=
  ((get_error_collapse ⟨none, "deepstream_docs"⟩ "someValue" (by decide)).2.1)
    "iterator fault"

/-- Claim C7: on a key whose routing fails (InvalidKey), each of set, get and
delete invokes its callback with the error message "Invalid key " ++ key,
leaves the store unchanged, and issues no store operation at all. -/
theorem invalid_key_no_io (cfg : Config) (st : StoreMap) (key : String) (value : JVal)
    (h : getParams cfg key = none) :
    connectorSet cfg st key value = (.cbErr ("Invalid key " ++ key), st, []) ∧
    connectorGet cfg st key = (.cb (some ("Invalid key " ++ key)) none, []) ∧
    connectorDelete cfg st key = (.cbErr ("Invalid key " ++ key), st, []) := by
  refine ⟨?_, ?_, ?_⟩ <;> simp [connectorSet, connectorGet, connectorDelete, h]

/-- Claim C7, witness instance: the key "/abc" with delimiter '/' is invalid
for all three operations, with no store I/O. -/
theorem invalid_key_no_io_witness :
    connectorSet ⟨some "/", "deepstream_docs"⟩ emptyStore "/abc" .null =
      (.cbErr ("Invalid key " ++ "/abc"), emptyStore, []) ∧
    connectorGet ⟨some "/", "deepstream_docs"⟩ emptyStore "/abc" =
      (.cb (some ("Invalid key " ++ "/abc")) none, []) ∧
    connectorDelete ⟨some "/", "deepstream_docs"⟩ emptyStore "/abc" =
      (.cbErr ("Invalid key " ++ "/abc"), emptyStore, []) :=
  invalid_key_no_io ⟨some "/", "deepstream_docs"⟩ emptyStore "/abc" .null rfl

/-- Claim C1: with delimiter '/', set("user/abc", v) succeeds and stores the
document under the routed id "abc" (with `_key` = "abc") in collection
"user", but the immediately following get("user/abc") filters on the raw
key "user/abc" instead of the routed id, finds nothing, and delivers
(null, null) instead of a value deeply equal to v. -/
theorem set_get_mismatch :
    (connectorSet ⟨some "/", "deepstream_docs"⟩ emptyStore "user/abc"
        (.obj [("_v", .num 1), ("_d", .obj [("v", .num 10)])])).1 = SetRes.cbOk ∧
    (connectorSet ⟨some "/", "deepstream_docs"⟩ emptyStore "user/abc"
        (.obj [("_v", .num 1), ("_d", .obj [("v", .num 10)])])).2.1 "user" "abc" =
      some (.obj [("v", .num 10), ("__ds", .obj [("_v", .num 1)]), ("_key", .str "abc")]) ∧
    (connectorGet ⟨some "/", "deepstream_docs"⟩
        (connectorSet ⟨some "/", "deepstream_docs"⟩ emptyStore "user/abc"
          (.obj [("_v", .num 1), ("_d", .obj [("v", .num 10)])])).2.1 "user/abc").1 =
      GetRes.cb none none :=
  ⟨rfl, rfl, rfl⟩

theorem provCount_cached (oracle : String → CollOutcome) (name : String)
    (pred : ProvEffect → Bool)
    (hA : ∀ n, n ≠ name →
      (ProvEffect.existsCheck n :: checkEffects oracle n).countP pred = 0) :
    ∀ ns st, (st.collections name).isSome = true →
      (runGetCollections oracle st ns).2.countP pred = 0 := by
  intro ns
  induction ns with
  | nil => intro st h; simp [runGetCollections]
  | cons n ns ih =>
    intro st h
    cases hc : st.collections n with
    | some hh =>
      have hgc : getCollection oracle st n = (hh, st, []) := by simp [getCollection, hc]
      simp only [runGetCollections, hgc, List.nil_append]
      exact ih st h
    | none =>
      have hne : n ≠ name := by
        intro hnn
        rw [hnn] at hc
        rw [hc] at h
        simp at h
      have hgc : getCollection oracle st n =
          (st.nextHandle,
           ⟨fun m => if m = n then some st.nextHandle else st.collections m,
            st.nextHandle + 1⟩,
           .existsCheck n :: checkEffects oracle n) := by
        simp [getCollection, hc]
      have hpres : ((⟨fun m => if m = n then some st.nextHandle else st.collections m,
          st.nextHandle + 1⟩ : ProvState).collections name).isSome = true := by
        show (if name = n then some st.nextHandle else st.collections name).isSome = true
        rw [if_neg (fun hh => hne hh.symm)]
        exact h
      simp only [runGetCollections, hgc, List.countP_append]
      rw [hA n hne, ih _ hpres]

theorem provCount_le_one (oracle : String → CollOutcome) (name : String)
    (pred : ProvEffect → Bool)
    (hA : ∀ n, n ≠ name →
      (ProvEffect.existsCheck n :: checkEffects oracle n).countP pred = 0)
    (hB : (ProvEffect.existsCheck name :: checkEffects oracle name).countP pred ≤ 1) :
    ∀ ns st, (runGetCollections oracle st ns).2.countP pred ≤ 1 := by
  intro ns
  induction ns with
  | nil => intro st; simp [runGetCollections]
  | cons n ns ih =>
    intro st
    cases hc : st.collections n with
    | some hh =>
      have hgc : getCollection oracle st n = (hh, st, []) := by simp [getCollection, hc]
      simp only [runGetCollections, hgc, List.nil_append]
      exact ih st
    | none =>
      have hgc : getCollection oracle st n =
          (st.nextHandle,
           ⟨fun m => if m = n then some st.nextHandle else st.collections m,
            st.nextHandle + 1⟩,
           .existsCheck n :: checkEffects oracle n) := by
        simp [getCollection, hc]
      simp only [runGetCollections, hgc, List.countP_append]
      by_cases hnn : n = name
      · subst hnn
        have hrest : (runGetCollections oracle
            ⟨fun m => if m = n then some st.nextHandle else st.collections m,
             st.nextHandle + 1⟩ ns).2.countP pred = 0 := by
          refine provCount_cached oracle n pred hA ns _ ?_
          show (if n = n then some st.nextHandle else st.collections n).isSome = true
          rw [if_pos rfl]
          rfl
        rw [hrest]
        omega
      · rw [hA n hnn]
        simp only [Nat.zero_add]
        exact ih _

/-- Claim C8: for every collection name, a call on a connector whose cache
already holds the name returns the identical cached handle, unchanged state
and no effects; a first call on a fresh name installs the returned handle in
the cache synchronously, with the asynchronous existence check listed after
it; consequently, over any sequence of _getCollection calls on one connector
instance, at most one existence check and at most one creation request are
ever issued per distinct collection name. -/
theorem getCollection_provisions_once (oracle : String → CollOutcome) (name : String) :
    (∀ st h, st.collections name = some h → getCollection oracle st name = (h, st, [])) ∧
    (∀ st, st.collections name = none →
      (getCollection oracle st name).2.1.collections name =
          some (getCollection oracle st name).1 ∧
      (getCollection oracle st name).2.2.head? =
          some (ProvEffect.existsCheck name)) ∧
    (∀ ns, (runGetCollections oracle emptyProv ns).2.countP (isCreateReq name) ≤ 1 ∧
           (runGetCollections oracle emptyProv ns).2.countP (isExistsCheck name) ≤ 1) := by
  refine ⟨?_, ?_, ?_⟩
  · intro st h hh
    simp [getCollection, hh]
  · intro st h
    constructor
    · simp [getCollection, h]
    · simp [getCollection, h]
  · intro ns
    constructor
    · refine provCount_le_one oracle name (isCreateReq name) ?_ ?_ ns emptyProv
      · intro n hn
        cases hoc : oracle n <;>
          simp [checkEffects, hoc, List.countP_cons, isCreateReq, hn]
      · cases hoc : oracle name <;>
          simp [checkEffects, hoc, List.countP_cons, isCreateReq]
    · refine provCount_le_one oracle name (isExistsCheck name) ?_ ?_ ns emptyProv
      · intro n hn
        cases hoc : oracle n <;>
          simp [checkEffects, hoc, List.countP_cons, isExistsCheck, hn]
      · cases hoc : oracle name <;>
          simp [checkEffects, hoc, List.countP_cons, isExistsCheck]

/-- Claim C8, witness instance: a second call for an already-cached name
returns the identical handle with no further store traffic. -/
theorem getCollection_provisions_once_witness :
    getCollection (fun _ => CollOutcome.createdOk)
        ⟨fun n => if n = "user" then some 7 else none, 8⟩ "user" =
      (7, ⟨fun n => if n = "user" then some 7 else none, 8⟩, []) :=
  (getCollection_provisions_once (fun _ => CollOutcome.createdOk) "user").1
    ⟨fun n => if n = "user" then some 7 else none, 8⟩ 7 rfl

/-- Claim C9, counterexample: when creating a fresh collection fails, the
provisioning effects are exactly an existence check, a create request and a
console.error — no connector `error` event is emitted, contradicting the
claim that the failure is reported on the connector's error channel. -/
theorem create_failure_console_cex :
    (getCollection (fun _ => CollOutcome.createFailed "disk full") emptyProv "user").2.2 =
      [.existsCheck "user", .createReq "user", .consoleError "disk full"] ∧
    ((getCollection (fun _ => CollOutcome.createFailed "disk full") emptyProv
        "user").2.2.all (fun e => !(isEmitError e))) = true :=
  ⟨rfl, rfl⟩

/-- Claim C9 (amended): collection-creation failures are reported only via
console.error; the provisioning path emits no connector error event, and the
handle and cache state handed back to the triggering set/get/delete call are
independent of the provisioning outcome, so the failure is never delivered
to that call's callback. -/
theorem create_failure_reporting (oracle : String → CollOutcome) (st : ProvState)
    (name e : String) (h1 : st.collections name = none)
    (h2 : oracle name = .createFailed e) :
    (getCollection oracle st name).2.2 =
      [.existsCheck name, .createReq name, .consoleError e] ∧
    (∀ msg, ProvEffect.emitError msg ∉ (getCollection oracle st name).2.2) ∧
    (∀ oracle2, (getCollection oracle2 st name).1 = (getCollection oracle st name).1 ∧
      (getCollection oracle2 st name).2.1 = (getCollection oracle st name).2.1) := by
  refine ⟨?_, ?_, ?_⟩
  · simp [getCollection, h1, checkEffects, h2]
  · intro msg
    simp [getCollection, h1, checkEffects, h2]
  · intro oracle2
    constructor <;> simp [getCollection, h1]

/-- Claim C9, witness instance. -/
theorem create_failure_reporting_witness :
    (getCollection (fun _ => CollOutcome.createFailed "quota exceeded") emptyProv
        "accounts").2.2 =
      [.existsCheck "accounts", .createReq "accounts", .consoleError "quota exceeded"] :=
  (create_failure_reporting (fun _ => CollOutcome.createFailed "quota exceeded")
    emptyProv "accounts" "quota exceeded" rfl rfl).1
